import Mathlib

/-!
Verification development for the autism-support retrieval / synthesis pipeline.

Text is modelled as `List Char` (Python `str`), scores and confidences as `ℚ`,
fallible subcomponents (network, LLM, embedding service) as explicit oracle
parameters, and the vector store as an in-memory list of points together with
the store's documented filtered-top-k search contract.
-/

namespace AutismSupport

/-- ASCII lowering, the behaviour of Python `str.lower()` on the ASCII range. -/
def lowerChar (c : Char) : Char :=
  if 'A' ≤ c ∧ c ≤ 'Z' then Char.ofNat (c.toNat + 32) else c

/-- Python `s.lower()` (ASCII fragment). -/
def lowerStr (s : List Char) : List Char := s.map lowerChar

/-- Python `needle in hay` on strings: scan for an occurrence of `needle`. -/
def listContains (hay needle : List Char) : Bool :=
  match hay with
  | [] => needle.isEmpty
  | _ :: rest => needle.isPrefixOf hay || listContains rest needle

/-- Python `term.lower() in query.lower()`, the router's matching primitive. -/
def containsCI (hay needle : List Char) : Bool :=
  listContains (lowerStr hay) (lowerStr needle)

/-- Fuelled worker for Python `str.split(sep)` with a non-empty separator.
`acc` holds the current piece reversed; on a separator occurrence the piece is
emitted and the separator consumed.  Fuel `≥ s.length` never runs out. -/
def pySplitGo (sep : List Char) : Nat → List Char → List Char → List (List Char)
  | 0, s, acc => [acc.reverse ++ s]
  | _ + 1, [], acc => [acc.reverse]
  | fuel + 1, c :: rest, acc =>
    if sep.isPrefixOf (c :: rest) then
      acc.reverse :: pySplitGo sep fuel (List.drop (sep.length - 1) rest) []
    else
      pySplitGo sep fuel rest (c :: acc)

/-- Python `s.split(sep)` for a non-empty separator `sep`. -/
def pySplit (sep s : List Char) : List (List Char) :=
  pySplitGo sep s.length s []

/-- Python `s.strip()`: drop leading and trailing whitespace. -/
def pyStrip (s : List Char) : List Char :=
  ((s.dropWhile Char.isWhitespace).reverse.dropWhile Char.isWhitespace).reverse

/-- Fuelled worker for Python `s.split()` (no argument). -/
def pyWordsGo : Nat → List Char → List (List Char)
  | 0, _ => []
  | _ + 1, [] => []
  | fuel + 1, c :: rest =>
    if c.isWhitespace then pyWordsGo fuel rest
    else
      ((c :: rest).takeWhile (fun d => ¬ d.isWhitespace)) ::
        pyWordsGo fuel ((c :: rest).dropWhile (fun d => ¬ d.isWhitespace))

/-- Python `s.split()` (no argument): whitespace-delimited words, no empties. -/
def pyWords (s : List Char) : List (List Char) := pyWordsGo s.length s

/-- Python `" ".join(words)`. -/
def joinSpace : List (List Char) → List Char
  | [] => []
  | [w] => w
  | w :: rest => w ++ ' ' :: joinSpace rest

/-- The sentence separator `". "` used by the chunker. -/
def dotSpace : List Char := ['.', ' ']

/-- The paragraph separator `"\n\n"` used by the chunker's overflow pass. -/
def parSep : List Char := ['\n', '\n']

/-- One step of the sentence-accumulation loop in `chunk_text`
(`ingest_user_docs.py`): flush the current chunk when adding the next sentence
would exceed the ~4 chars/token budget, otherwise append the sentence plus
`". "`. -/
def chunkStep (maxTokens : Nat) (st : List (List Char) × List Char)
    (s : List Char) : List (List Char) × List Char :=
  if 4 * maxTokens < (st.2 ++ s).length ∧ st.2 ≠ [] then
    (st.1 ++ [pyStrip st.2], s)
  else
    (st.1, st.2 ++ s ++ dotSpace)

/-- Phase 1 of `chunk_text`: split on `". "` and accumulate sentences into
budget-bounded chunks; a non-whitespace trailing accumulator becomes the last
chunk. -/
def chunksPhase1 (maxTokens : Nat) (text : List Char) : List (List Char) :=
  let st := (pySplit dotSpace text).foldl (chunkStep maxTokens) ([], [])
  if pyStrip st.2 ≠ [] then st.1 ++ [pyStrip st.2] else st.1

/-- Phase 2 of `chunk_text`: a chunk over the budget is replaced by its
non-empty stripped paragraphs, others pass through unchanged. -/
def chunkPhase2 (maxTokens : Nat) (chunk : List Char) : List (List Char) :=
  if 4 * maxTokens < chunk.length then
    ((pySplit parSep chunk).map pyStrip).filter (fun p => p ≠ [])
  else
    [chunk]

/-- Embedding of `chunk_text(text, max_tokens)` from `rag/ingest_user_docs.py`; the float
test `len(chunk) * 0.25 > max_tokens` is the exact integer test
`4 * max_tokens < len(chunk)`. -/
def chunk_text (maxTokens : Nat) (text : List Char) : List (List Char) :=
  ((chunksPhase1 maxTokens text).map (chunkPhase2 maxTokens)).flatten

/-- The `normalize` helper inside `check_content_similarity`: lowercase and collapse all
whitespace runs to single spaces. -/
def normalizeText (s : List Char) : List Char :=
  joinSpace (pyWords (lowerStr s))

/-- Cardinality of a Python set built from a word list. -/
def setCard (ws : List (List Char)) : Nat := ws.dedup.length

/-- The Jaccard decision `len(intersection)/len(union) > threshold`. -/
def jaccardExceeds (inter union : Nat) (threshold : ℚ) : Bool :=
  decide (threshold < (inter : ℚ) / (union : ℚ))

/-- Embedding of `check_content_similarity(chunk1, chunk2, threshold)` from
`rag/ingest_user_docs.py`: exact match after normalization, then a substring
test for long texts, then token-set Jaccard similarity against the threshold. -/
def check_content_similarity (chunk1 chunk2 : List Char) (threshold : ℚ := 8/10) :
    Bool :=
  let norm1 := normalizeText chunk1
  let norm2 := normalizeText chunk2
  if norm1 = norm2 then true
  else
    let words1 := (pyWords norm1).dedup
    let words2 := (pyWords norm2).dedup
    if words1 = [] ∨ words2 = [] then false
    else
      let inter := words1.filter (fun w => w ∈ words2)
      let union := (words1 ++ words2).dedup
      if 50 < norm1.length ∧ 50 < norm2.length ∧
          (listContains norm2 norm1 ∨ listContains norm1 norm2) then true
      else jaccardExceeds inter.length union.length threshold

/-- Embedding of `check_duplicate_content(new_chunk, existing_chunks, threshold)`. -/
def check_duplicate_content (newChunk : List Char) (existing : List (List Char))
    (threshold : ℚ := 8/10) : Bool :=
  existing.any (fun e => check_content_similarity newChunk e threshold)

/-! ## Vector store model

The store is a black-box nearest-neighbour service; a collection is a list of
points, each carrying the similarity score the store would report for the
query under consideration (the embedding itself is opaque).  Its documented
search contract: return the top-`limit` points matching the filter, ordered by
descending score (stable). -/

/-- Payload attached to a stored point (`Dict` in the source; absent keys are
`none`). -/
structure Payload where
  user_id : Option String := none
  source : Option String := none
  filename : Option String := none
  type : Option String := none
  content : Option (List Char) := none
deriving DecidableEq, Repr

def emptyPayload : Payload := {}

/-- A stored point: opaque id, payload, and the score reported for the query. -/
structure QPoint where
  id : Nat
  score : ℚ
  payload : Option Payload
deriving DecidableEq, Repr

/-- Stable insertion into a descending-by-score list (`list.sort(key=score,
reverse=True)` is a stable descending sort). -/
def insertByScoreDesc {α : Type} (sc : α → ℚ) (x : α) : List α → List α
  | [] => [x]
  | y :: rest => if sc y ≤ sc x then x :: y :: rest else y :: insertByScoreDesc sc x rest

/-- Stable descending sort by score. -/
def sortByScoreDesc {α : Type} (sc : α → ℚ) : List α → List α
  | [] => []
  | x :: rest => insertByScoreDesc sc x (sortByScoreDesc sc rest)

/-- The `Filter(must=[FieldCondition(key="user_id", match=MatchAny(any=[uid,
"public"]))])` predicate: a point with no `user_id` key never matches. -/
def matchesUserFilter (uid : String) (p : QPoint) : Bool :=
  match p.payload with
  | none => false
  | some pl => pl.user_id == some uid || pl.user_id == some "public"

/-- The store's filtered top-k search contract (`qdr.search`). -/
def qdrantSearch (coll : List QPoint) (filt : Option String) (limit : Nat) :
    List QPoint :=
  let matched := match filt with
    | none => coll
    | some uid => coll.filter (matchesUserFilter uid)
  (sortByScoreDesc (fun p => p.score) matched).take limit

/-- A formatted search result (`{"score": ..., "payload": hit.payload or {},
"id": ...}`). -/
structure SearchHit where
  score : ℚ
  payload : Payload
  id : Nat
deriving DecidableEq, Repr

def formatHit (p : QPoint) : SearchHit := ⟨p.score, p.payload.getD emptyPayload, p.id⟩

/-- Embedding of `search_with_user_filter` from `rag/qdrant_client.py`: the owner filter
`user_id ∈ {user_id, "public"}` is attached only when `user_id` is truthy
(neither `None` nor the empty string). -/
def search_with_user_filter (coll : List QPoint) (user_id : Option String)
    (k : Nat := 8) : List SearchHit :=
  let filt : Option String := match user_id with
    | some uid => if uid ≠ "" then some uid else none
    | none => none
  (qdrantSearch coll filt k).map formatHit

/-- Source extraction in the diversity first pass: `payload.get("source",
"unknown")`, falling back to `payload.get("filename", "unknown")` when the
source value is falsy. -/
def extractSource (pl : Option Payload) : String :=
  match pl with
  | none => "unknown"
  | some p =>
    let s := p.source.getD "unknown"
    if s = "" then p.filename.getD "unknown" else s

/-- A diversity-search result (formatted hit plus its extracted `source`). -/
structure DivResult where
  score : ℚ
  payload : Payload
  id : Nat
  source : String
deriving DecidableEq, Repr

/-- First pass of `search_with_diversity`: walk candidates in score order,
selecting a hit when its source is unseen **or** fewer than `min_sources`
distinct sources have been seen, until `k` are selected. -/
def divFirstPass (k minSources : Nat) :
    List QPoint → List DivResult → List String → List DivResult
  | [], sel, _ => sel
  | h :: rest, sel, seen =>
    if k ≤ sel.length then sel
    else
      let src := extractSource h.payload
      if src ∉ seen ∨ seen.length < minSources then
        divFirstPass k minSources rest
          (sel ++ [⟨h.score, h.payload.getD emptyPayload, h.id, src⟩])
          (if src ∈ seen then seen else seen ++ [src])
      else
        divFirstPass k minSources rest sel seen

/-- Loop of the second pass: fill remaining slots with the best remaining
candidates (no filename fallback for `source` here, as in the source). -/
def divFillLoop (k : Nat) : List QPoint → List DivResult → List DivResult
  | [], sel => sel
  | h :: rest, sel =>
    if k ≤ sel.length then sel
    else
      divFillLoop k rest (sel ++
        [⟨h.score, h.payload.getD emptyPayload, h.id,
          match h.payload with
          | some p => p.source.getD "unknown"
          | none => "unknown"⟩])

/-- Second pass of `search_with_diversity`: candidates not already selected,
in order, until `k` are selected. -/
def divSecondPass (k : Nat) (candidates : List QPoint) (sel : List DivResult) :
    List DivResult :=
  divFillLoop k (candidates.filter (fun h => h.id ∉ sel.map (fun s => s.id))) sel

/-- Embedding of `search_with_diversity` from `rag/qdrant_client.py`: fetch `3 × k` raw
candidates, apply the two selection passes, then sort by score and truncate. -/
def search_with_diversity (coll : List QPoint) (user_id : Option String)
    (k : Nat := 8) (minSources : Nat := 2) : List DivResult :=
  let filt : Option String := match user_id with
    | some uid => if uid ≠ "" then some uid else none
    | none => none
  let candidates := qdrantSearch coll filt (k * 3)
  if candidates = [] then []
  else
    (sortByScoreDesc (fun r => r.score)
      (divSecondPass k candidates (divFirstPass k minSources candidates [] []))).take k

/-- Embedding of `search_user_documents(user_id, query, limit)` from
`rag/ingest_user_docs.py`: search the caller's private collection
`user_docs_{user_id}` with the caller's own id as owner filter.  `store` maps
collection names to collections; `embedOk` models whether the embedding
service produced a query vector. -/
def search_user_documents (store : String → List QPoint) (embedOk : Bool)
    (user_id : String) (k : Nat := 5) : List SearchHit :=
  if embedOk then
    search_with_user_filter (store ("user_docs_" ++ user_id)) (some user_id) k
  else []

/-- Number of distinct sources in a diversity result set. -/
def distinctSources (rs : List DivResult) : Nat := (rs.map (fun r => r.source)).dedup.length

/-! ## User-document ingestion (`rag/ingest_user_docs.py`) -/

/-- A point stored in a user's private collection (the payload fields the
ingestion logic reads back: filename, chunk content, owner). -/
structure UPoint where
  id : Nat
  filename : String
  content : List Char
  user_id : String
  chunk_index : Nat
  total_chunks : Nat
deriving DecidableEq, Repr

/-- A file in the user's upload directory, carrying the text that
`extract_text_from_file` (out of scope) produced for it. -/
structure UserFile where
  name : String
  content : List Char
deriving DecidableEq, Repr

/-- Chunk-level loop body of ingestion: skip a chunk that closely matches any
already-stored (or already-accepted) chunk, otherwise accept it and extend the
duplicate-check pool. -/
def chunkIngestStep (fname : String) (total : Nat)
    (st : List (String × List Char × Nat × Nat) × List (List Char))
    (ic : Nat × List Char) :
    List (String × List Char × Nat × Nat) × List (List Char) :=
  if check_duplicate_content ic.2 st.2 then st
  else (st.1 ++ [(fname, ic.2, ic.1, total)], st.2 ++ [ic.2])

/-- File-level loop body of ingestion: skip a file whose name is already in
the collection (as seen through the scroll window) or whose extracted content
is empty, otherwise chunk it and run the chunk-level dedup. -/
def processFile (existingDocs : List String)
    (st : List (String × List Char × Nat × Nat) × List (List Char))
    (f : UserFile) :
    List (String × List Char × Nat × Nat) × List (List Char) :=
  if f.name ∈ existingDocs then st
  else if f.content = [] then st
  else
    let chunks := chunk_text 4000 f.content
    chunks.enum.foldl (chunkIngestStep f.name chunks.length) st

/-- Embedding of `ingest_user_documents(user_id, docs_dir)`: the existing-document scan
scrolls the collection with `limit=1000`, so only the first 1000 stored points
feed the file-level and chunk-level duplicate checks.  `embedOk` models the
embedding service (all-or-nothing here); point ids are sequential stand-ins
for the opaque uuids.  Returns (number of chunks stored, new collection). -/
def ingest_user_documents (user_id : String) (embedOk : Bool)
    (files : List UserFile) (col : List UPoint) : Nat × List UPoint :=
  let existingPoints := col.take 1000
  let existingDocs := existingPoints.map (fun p => p.filename)
  let existingChunks := existingPoints.map (fun p => p.content)
  let documents := (files.foldl (processFile existingDocs) ([], existingChunks)).1
  if documents = [] then (0, col)
  else if embedOk then
    let newPoints := documents.enum.map (fun d =>
      (⟨col.length + d.1, d.2.1, d.2.2.1, user_id, d.2.2.2.1, d.2.2.2.2⟩ : UPoint))
    (documents.length, col ++ newPoints)
  else (0, col)

/-! ## Knowledge adapter (`knowledge/knowledge_adapter.py`) -/

/-- The accumulated user profile (the fields `get_initial_context` and the
synthesis engine read; `user_id` and `child_name` are carried to show which
fields the initial-context routing ignores). -/
structure Profile where
  role : String := ""
  diagnosis_status : String := ""
  child_age : String := ""
  user_id : String := "default"
  child_name : String := ""
deriving DecidableEq, Repr

/-- Embedding of `KnowledgeAdapter.get_initial_context(user_profile)` from
`knowledge/knowledge_adapter.py` (the adapter the conversation manager
constructs): routes on diagnosis status, then child age band, then role. -/
def get_initial_context (p : Profile) : String :=
  if p.diagnosis_status = "diagnosed_no" then
    if p.child_age = "0-3" ∨ p.child_age = "3-5" then "screening.early_childhood"
    else if p.child_age = "6-12" ∨ p.child_age = "13-17" then "screening.school_age"
    else "screening"
  else if p.diagnosis_status = "diagnosed_yes" then
    if p.child_age = "0-3" ∨ p.child_age = "3-5" then "treatment.early_intervention"
    else "treatment"
  else if p.role = "adult_self" then "screening.adult"
  else "general"

/-! ## Response synthesis engine (`knowledge/response_synthesis_engine.py`) -/

/-- A routes/branches entry of a structured node: a bare string or a dict
carrying an optional label. -/
inductive RBItem where
  | plain (s : String)
  | tagged (label : Option String)
deriving DecidableEq, Repr

/-- The structured content `get_mongodb_content` returns for a context path. -/
structure MongoDoc where
  response : String := ""
  tone : String := "supportive"
  source : String := ""
  routes : List RBItem := []
  branches : List RBItem := []
  options : List String := []
deriving DecidableEq, Repr

/-- One entry of the attributed source list (`{"source": ..., "filename":
..., "type": ...}` dicts; `filename` is present only for user documents). -/
structure SourceEntry where
  source : String
  filename : Option String := none
  type : String
deriving DecidableEq, Repr

/-- The dict `synthesize_response` returns.  In the pure-fallback branch the
Python dict carries no `web_content`/`vector_results` keys; that is modelled
as the empty lists. -/
structure SynthResult where
  response : String
  sources : List SourceEntry
  confidence : ℚ
  next_suggestions : List String
  web_content : List (String × String)
  vector_results : List SearchHit
deriving DecidableEq, Repr

/-- The engine's external collaborators: the structured store lookup, the web
browser (`browse_external_source`, `None` on failure), and the
chat-completion call (total: its internal failure already yields an apology
string).  The LLM's full prompt (profile, history, memory, patient facts) is
opaque; the oracle is keyed by the user query. -/
structure SynthEnv where
  mongo : String → Option MongoDoc
  browse : String → String → Option String
  llm : String → String

/-- Test `vector_results and any(... == "user_upload" or ... == "user_document")`:
does any candidate hit come from the user's private documents? -/
def hasUserDocs (vr : List SearchHit) : Bool :=
  vr.any (fun r => r.payload.source == some "user_upload" ||
                   r.payload.type == some "user_document")

/-- Canned fallback response, no-diagnosis variant. -/
def fallbackNoDx : String :=
  "I understand you\x27re looking for information about autism support. Since your child hasn\x27t been diagnosed yet, I\x27d recommend starting with developmental screening and monitoring. Would you like to learn more about early signs, screening options, or finding evaluation services?"

/-- Canned fallback response, diagnosed variant. -/
def fallbackDx : String :=
  "I\x27m here to help you with autism support resources. Since your child has been diagnosed, I can help you find treatment options, support services, educational resources, and community connections. What specific area would you like to explore?"

/-- Canned fallback response, unknown-status variant. -/
def fallbackUnknown : String :=
  "I\x27m here to help you with autism support and resources. I can provide information about screening, diagnosis, treatment options, support services, and educational resources. What would you like to learn more about?"

/-- The generic fallback branch of `synthesize_response`, keyed only on the
profile's diagnosis status. -/
def fallbackResponse (p : Profile) : String :=
  if p.diagnosis_status = "diagnosed_no" then fallbackNoDx
  else if p.diagnosis_status = "diagnosed_yes" then fallbackDx
  else fallbackUnknown

/-- Embedding of `_get_next_suggestions(mongodb_content, user_profile)`. -/
def getNextSuggestions (doc : MongoDoc) (p : Profile) : List String :=
  let fromRoutes := doc.routes.map (fun r =>
    match r with
    | .plain s => "Learn more about " ++ s
    | .tagged l => l.getD "Explore this topic")
  let fromBranches := doc.branches.map (fun b =>
    match b with
    | .plain s => "Explore " ++ s
    | .tagged l => l.getD "Learn more")
  let fromProfile :=
    if p.diagnosis_status = "diagnosed_no" then
      ["Get screening recommendations", "Learn about early signs"]
    else if p.diagnosis_status = "diagnosed_yes" then
      ["Find support resources", "Explore treatment options"]
    else []
  (fromRoutes ++ fromBranches ++ fromProfile).take 5

/-- User-document filenames, deduplicated in first-seen order. -/
def userDocFilenames (vr : List SearchHit) : List String :=
  vr.foldl (fun acc r =>
    if r.payload.source == some "user_upload" || r.payload.type == some "user_document" then
      let fn := r.payload.filename.getD "Unknown file"
      if fn ∈ acc then acc else acc ++ [fn]
    else acc) []

/-- Embedding of `synthesize_response(user_query, context_path, user_profile, ...,
vector_results)` from `knowledge/response_synthesis_engine.py`.  The
conversation history and memory feed only the opaque LLM prompt and are not
modelled as inputs. -/
def synthesize_response (env : SynthEnv) (query : String) (context_path : String)
    (profile : Profile) (vr : List SearchHit) : SynthResult :=
  let mongoOpt := env.mongo context_path
  let hasPatientDocs := hasUserDocs vr
  if mongoOpt.isNone ∧ ¬ hasPatientDocs then
    { response := fallbackResponse profile
      sources := []
      confidence := 1/2
      next_suggestions := ["Learn about screening options", "Find support resources",
                           "Explore treatment options"]
      web_content := []
      vector_results := [] }
  else
    let doc := match mongoOpt with
      | some d => d
      | none => { response := "Information about " ++ context_path }
    let externalSources := if doc.source ≠ "" then [doc.source] else []
    let web_content :=
      externalSources.foldl (fun acc src =>
        if src ≠ "" ∧ src.startsWith "http" then
          match env.browse src query with
          | some c => if pyStrip c.data ≠ [] then acc ++ [(src, c)] else acc
          | none => acc
        else acc) []
    let synthesized := env.llm query
    let nextSuggestions := getNextSuggestions doc profile
    let docSources := (userDocFilenames vr).take 3 |>.map (fun fn =>
      ({ source := "user_upload", filename := some fn, type := "user_document" } : SourceEntry))
    let ctxSources := if context_path ≠ "" then
        [({ source := context_path, type := "knowledge_base" } : SourceEntry)]
      else []
    let webSources := web_content.map (fun w =>
      ({ source := w.1, type := "web_content" } : SourceEntry))
    let kbSources := if vr ≠ [] ∧ ¬ hasPatientDocs then
        [({ source := "General knowledge base", type := "knowledge_base" } : SourceEntry)]
      else []
    { response := synthesized
      sources := docSources ++ ctxSources ++ webSources ++ kbSources
      confidence := if hasPatientDocs then 95/100
                    else if web_content ≠ [] then 9/10 else 7/10
      next_suggestions := nextSuggestions
      web_content := web_content
      vector_results := vr }

/-! ## Retrieval router (`retrieval/retrieval_router.py`) -/

/-- The guided-flow namespaces recognized by the router's context check. -/
def routeFlows : List String := ["diagnosed_no", "diagnosed_yes", "adult_self"]

/-- The critical-term set of the router as constructed by
`RetrievalRouter.__init__`: the knowledge-adapter safety rules are commented
out and `self.safety = set()` is hardcoded. -/
def constructedSafety : List String := []

/-- Python `", ".join(terms)`. -/
def joinComma : List String → String
  | [] => ""
  | [s] => s
  | s :: rest => s ++ ", " ++ joinComma rest

/-- Embedding of `RetrievalRouter.get_safety_warning(query)`: a fixed-format alert naming
the detected terms, or the empty string. -/
def get_safety_warning (safety : List String) (query : String) : String :=
  let detected := safety.filter (fun t => containsCI query.data t.data)
  if detected ≠ [] then
    "⚠️ Safety Alert: Detected critical terms: " ++ joinComma detected ++
      ". Please contact a healthcare professional immediately."
  else ""

/-- Embedding of `RetrievalRouter._get_vector_results(query, user_profile, limit)`: shared
collection with diversity (half the limit), private documents for non-public
users, merged, sorted by score, truncated.  The diversity results' extra
`source` key is dropped when merging, as downstream code reads only
score/payload/id. -/
def getVectorResults (store : String → List QPoint) (embedOk : Bool)
    (profile : Profile) (limit : Nat) : List SearchHit :=
  if embedOk then
    let uid := profile.user_id
    let shared := (search_with_diversity (store "kb_autism_support") (some uid)
      (limit / 2) 2).map (fun r => (⟨r.score, r.payload, r.id⟩ : SearchHit))
    let userRes := if uid ≠ "public" then search_user_documents store embedOk uid (limit / 2)
      else []
    (sortByScoreDesc (fun h => h.score) (shared ++ userRes)).take limit
  else []

/-- Embedding of `RetrievalRouter.route(user_query, user_profile, context_path)`: safety
terms first (`mongo_only`, no candidates), then guided-flow contexts
(`blend`, ~3 candidates), else free-form (`vector_only`, ~6 candidates).
`context_path` is `Optional` (`None` is falsy, like `""`). -/
def route (safety : List String) (store : String → List QPoint) (embedOk : Bool)
    (user_query : String) (profile : Profile) (context_path : Option String) :
    String × List SearchHit :=
  if safety.any (fun t => containsCI user_query.data t.data) then
    ("mongo_only", [])
  else if (match context_path with
      | some c => c != "" && routeFlows.any (fun f => listContains c.data f.data)
      | none => false : Bool) then
    ("blend", getVectorResults store embedOk profile 3)
  else
    ("vector_only", getVectorResults store embedOk profile 6)

/-! ## Conversation manager (`knowledge/intelligent_conversation_manager.py`) -/

/-- One conversation-history entry. -/
inductive Turn where
  | user (content : String) (timestamp : String)
  | assistant (content : String) (context_path : Option String)
      (sources : List SourceEntry) (next_suggestions : List String) (timestamp : String)
deriving DecidableEq, Repr

/-- A keyword route of a conversation-tree node. -/
structure TreeRoute where
  keywords : List String
  next_path : Option String
deriving Repr

/-- A conversation-tree node (the part `_determine_next_context` reads). -/
structure TreeNode where
  routes : List TreeRoute
deriving Repr

/-- Per-session manager state. -/
structure MState where
  current_context_path : Option String := none
  history : List Turn := []
  profile : Profile := {}
  available_paths : List String := []
deriving DecidableEq

/-- The dict `process_user_response` returns.  The safety-interception return
carries no `mode` key (modelled as `none`) and a `safety_warning: True` key;
the other branches carry a `mode` and no `safety_warning` key (`false`). -/
structure PResult where
  response : String
  context_path : Option String
  next_suggestions : List String
  available_paths : List String
  confidence : ℚ
  sources : List SourceEntry
  mode : Option String
  safety_warning : Bool
deriving DecidableEq, Repr

/-- The manager's collaborators.  `routeCall` and `synthCall` may raise
(`Except.error`); in the non-raising instantiation they are the `route` and
`synthesize_response` functions above.  `extractFacts` is the regex-driven
`_extract_and_remember_facts`, `patientPatch` the blend-mode
`parse_patient_documents` profile update (internally caught, hence total). -/
structure ManagerEnv where
  safety : List String := constructedSafety
  routeCall : String → Profile → Option String → Except String (String × List SearchHit)
  synthCall : String → Option String → Profile → List SearchHit → Except String SynthResult
  extractFacts : String → Profile → Profile
  getAvailablePaths : Option String → List String
  getNode : Option String → Option TreeNode
  patientPatch : String → Option Profile
  now : String

/-- Embedding of `_determine_next_context(user_input)`: first available path occurring
case-insensitively inside the input, else the first keyword route of the
current node matching the input, else stay on the current path. -/
def determineNextContext (env : ManagerEnv) (st : MState) (input : String) :
    Option String :=
  match st.available_paths.find? (fun path => containsCI input.data path.data) with
  | some p => some p
  | none =>
    match env.getNode st.current_context_path with
    | some node =>
      match node.routes.findSome? (fun r =>
        if r.keywords.any (fun kw => containsCI input.data kw.data) then
          some (match r.next_path with
                | some p => some p
                | none => st.current_context_path)
        else none) with
      | some res => res
      | none => st.current_context_path
    | none => st.current_context_path

/-- The apologetic message of the manager's top-level exception handler. -/
def apologyMessage : String :=
  "I apologize, but I encountered an error processing your request. Please try again."

/-- Embedding of `IntelligentConversationManager.process_user_response(user_input,
selected_path)`.  Fact extraction and the user turn are recorded first; a
safety warning short-circuits; a routing exception degrades to
`("vector_only", [])` via the inner handler; a synthesis exception reaches
the top-level handler, which returns the apology with `mode: "error"`.
Memory-manager writes are external I/O with no bearing on the returned
state and are not modelled. -/
def processUserResponse (env : ManagerEnv) (st : MState) (input : String)
    (selected : Option String) : MState × PResult :=
  let profile1 := env.extractFacts input st.profile
  let hist1 := st.history ++ [Turn.user input env.now]
  let stA : MState := { st with profile := profile1, history := hist1 }
  let warning := get_safety_warning env.safety input
  if warning ≠ "" then
    (stA, { response := warning, context_path := st.current_context_path,
            next_suggestions := [], available_paths := st.available_paths,
            confidence := 1, sources := [], mode := none, safety_warning := true })
  else
    let nextCtx : Option String := match selected with
      | some p => some p
      | none => determineNextContext env stA input
    let stB := { stA with current_context_path := nextCtx }
    let rres := match env.routeCall input profile1 nextCtx with
      | .ok mv => mv
      | .error _ => ("vector_only", [])
    let profile2 := if rres.1 = "blend" then
        match env.patientPatch profile1.user_id with
        | some p2 => p2
        | none => profile1
      else profile1
    let stC := { stB with profile := profile2 }
    let scall := if rres.1 = "mongo_only" then env.synthCall input nextCtx profile2 []
      else env.synthCall input nextCtx profile2 rres.2
    match scall with
    | .error _ =>
      (stC, { response := apologyMessage, context_path := stC.current_context_path,
              next_suggestions := [], available_paths := [], confidence := 0,
              sources := [], mode := some "error", safety_warning := false })
    | .ok r =>
      let newPaths := env.getAvailablePaths nextCtx
      let hist2 := hist1 ++
        [Turn.assistant r.response nextCtx r.sources r.next_suggestions env.now]
      let stD := { stC with available_paths := newPaths, history := hist2 }
      (stD, { response := r.response, context_path := nextCtx,
              next_suggestions := r.next_suggestions, available_paths := newPaths,
              confidence := r.confidence, sources := r.sources,
              mode := some rres.1, safety_warning := false })

/-- The dict `start_conversation` returns (the conversation id is an opaque
uuid, not modelled). -/
structure StartResult where
  response : String
  context_path : String
  next_suggestions : List String
  available_paths : List String
deriving DecidableEq, Repr

/-- Embedding of `IntelligentConversationManager.start_conversation(user_profile)`: reset
history, resolve the initial context path from the profile via the knowledge
adapter, synthesize the first assistant turn (an uncaught synthesis failure
propagates, hence `Except`). -/
def startConversation (env : ManagerEnv) (_st : MState) (profile : Profile) :
    Except String (MState × StartResult) :=
  (env.synthCall "Start conversation" (some (get_initial_context profile)) profile []).map
    (fun r =>
      let initialPath := get_initial_context profile
      let paths := env.getAvailablePaths (some initialPath)
      let st1 : MState :=
        { current_context_path := some initialPath
          history := [Turn.assistant r.response (some initialPath) r.sources
                        r.next_suggestions ""]
          profile := profile
          available_paths := paths }
      (st1, { response := r.response, context_path := initialPath,
              next_suggestions := r.next_suggestions, available_paths := paths }))

/-! ## Fixtures used by witnesses and counterexamples -/

/-- A synthesis environment with an empty structured store, no web access,
and a fixed LLM answer. -/
def pureSynthEnv : SynthEnv :=
  { mongo := fun _ => none
    browse := fun _ _ => none
    llm := fun _ => "Here is some guidance." }

/-- The manager wired to its non-raising collaborators (empty safety set, as
constructed; empty vector store; embedding unavailable). -/
def demoEnv : ManagerEnv :=
  { safety := constructedSafety
    routeCall := fun q p c => .ok (route constructedSafety (fun _ => []) false q p c)
    synthCall := fun q c p vr => .ok (synthesize_response pureSynthEnv q (c.getD "") p vr)
    extractFacts := fun _ p => p
    getAvailablePaths := fun _ => []
    getNode := fun _ => none
    patientPatch := fun _ => none
    now := "t0" }

/-- A store holding Alice's private collection: one chunk owned by `alice`,
one shared `public` chunk. -/
def c2Store : String → List QPoint := fun name =>
  if name = "user_docs_alice" then
    [⟨1, 5, some { user_id := some "alice", content := some "iep notes".data }⟩,
     ⟨2, 3, some { user_id := some "public", content := some "kb chunk".data }⟩]
  else []

/-- A small mixed-owner collection. -/
def c10Coll : List QPoint :=
  [⟨1, 5, some { user_id := some "alice" }⟩,
   ⟨2, 4, some { user_id := some "bob" }⟩,
   ⟨3, 3, some { user_id := some "public" }⟩]

/-- Shared collection whose two top-scored chunks come from one source and
whose third, relevant, chunk comes from a second source. -/
def c4Coll : List QPoint :=
  [⟨1, 10, some { user_id := some "public", source := some "cdc" }⟩,
   ⟨2, 9, some { user_id := some "public", source := some "cdc" }⟩,
   ⟨3, 1, some { user_id := some "public", source := some "autism_speaks" }⟩]

def profileNoDxToddler : Profile :=
  { role := "parent_caregiver", diagnosis_status := "diagnosed_no",
    child_age := "0-3", user_id := "u1" }

def profileNoDxSchool : Profile :=
  { role := "parent_caregiver", diagnosis_status := "diagnosed_no",
    child_age := "6-12", user_id := "u2" }

def profileTwinA : Profile :=
  { role := "parent_caregiver", diagnosis_status := "diagnosed_yes",
    child_age := "3-5", user_id := "uA" }

def profileTwinB : Profile :=
  { role := "parent_caregiver", diagnosis_status := "diagnosed_yes",
    child_age := "3-5", user_id := "uB", child_name := "Tucker" }

/-! ## Sort and search lemmas -/

theorem mem_insertByScoreDesc {α : Type} (sc : α → ℚ) (x y : α) :
    ∀ l : List α, (y ∈ insertByScoreDesc sc x l ↔ y = x ∨ y ∈ l)
  | [] => by simp [insertByScoreDesc]
  | z :: rest => by
    by_cases h : sc z ≤ sc x
    · simp only [insertByScoreDesc, if_pos h, List.mem_cons]
    · simp only [insertByScoreDesc, if_neg h, List.mem_cons,
        mem_insertByScoreDesc sc x y rest]
      tauto

theorem mem_sortByScoreDesc {α : Type} (sc : α → ℚ) (y : α) :
    ∀ l : List α, (y ∈ sortByScoreDesc sc l ↔ y ∈ l)
  | [] => Iff.rfl
  | x :: rest => by
    rw [sortByScoreDesc, mem_insertByScoreDesc, List.mem_cons,
      mem_sortByScoreDesc sc y rest]

/-- Soundness of the owner filter: with a non-empty `user_id`, every hit of
`search_with_user_filter` is owned by that user or by the `public` sentinel. -/
theorem owner_filter_sound (coll : List QPoint) (uid : String) (k : Nat)
    (h : uid ≠ "") :
    ∀ r ∈ search_with_user_filter coll (some uid) k,
      r.payload.user_id = some uid ∨ r.payload.user_id = some "public" := by
  intro r hr
  simp only [search_with_user_filter, h, if_true, ne_eq, not_false_eq_true,
    ite_true, qdrantSearch] at hr
  obtain ⟨p, hp, rfl⟩ := List.mem_map.1 hr
  have hp2 : p ∈ coll.filter (matchesUserFilter uid) :=
    (mem_sortByScoreDesc _ _ _).1 (List.mem_of_mem_take hp)
  have hm : matchesUserFilter uid p = true := (List.mem_filter.1 hp2).2
  unfold matchesUserFilter at hm
  cases hpl : p.payload with
  | none => rw [hpl] at hm; cases hm
  | some pl =>
    rw [hpl] at hm
    simp only [Bool.or_eq_true, beq_iff_eq] at hm
    simpa [formatHit, hpl] using hm

/-- C2: for all users A and B with A ≠ B (and B not the `public` sentinel),
a private-collection search issued on behalf of A — `search_user_documents`
over A's `user_docs_{A}` collection with A's user id — returns only chunks
whose owner `user_id` is A or `public`, and therefore never returns a chunk
whose owner is B. -/
theorem C2_tenant_isolation (store : String → List QPoint) (embedOk : Bool)
    (A B : String) (k : Nat) (hA : A ≠ "") (hBA : B ≠ A) (hBpub : B ≠ "public") :
    ∀ r ∈ search_user_documents store embedOk A k,
      (r.payload.user_id = some A ∨ r.payload.user_id = some "public") ∧
        r.payload.user_id ≠ some B := by
  intro r hr
  unfold search_user_documents at hr
  cases embedOk with
  | false => simp at hr
  | true =>
    simp only [if_true] at hr
    have h := owner_filter_sound (store ("user_docs_" ++ A)) A k hA r hr
    refine ⟨h, ?_⟩
    rcases h with h | h <;> rw [h] <;> intro hcon <;>
      exact absurd (Option.some.inj hcon).symm (by first | exact hBA | exact hBpub)

/-- Closed witness for C2: on a concrete store, Alice's search returns hits
and none of them is owned by Bob. -/
theorem C2_tenant_isolation_witness :
    search_user_documents c2Store true "alice" 5 ≠ [] ∧
    (search_user_documents c2Store true "alice" 5).all
      (fun r => r.payload.user_id != some "bob") = true := by
  refine ⟨by decide, ?_⟩
  have h := C2_tenant_isolation c2Store true "alice" "bob" 5
    (by decide) (by decide) (by decide)
  rw [List.all_eq_true]
  intro r hr
  simpa using (h r hr).2

/-- C10: with `user_id` equal to `None` or the empty string, no owner filter
is attached — the search returns the raw top-k of the whole collection — and
the owner filter is constructed (and then sound) only for a non-empty
`user_id`. -/
theorem C10_unfiltered_when_user_id_falsy (coll : List QPoint) (k : Nat) :
    search_with_user_filter coll none k
        = ((sortByScoreDesc (fun p => p.score) coll).take k).map formatHit ∧
    search_with_user_filter coll (some "") k
        = search_with_user_filter coll none k ∧
    (∀ uid : String, uid ≠ "" →
      ∀ r ∈ search_with_user_filter coll (some uid) k,
        r.payload.user_id = some uid ∨ r.payload.user_id = some "public") :=
  ⟨rfl, rfl, fun uid h => owner_filter_sound coll uid k h⟩

/-- Closed witness for C10: on a concrete mixed-owner collection, the
empty-string search equals the unfiltered search (and in particular returns
Bob's chunk to a caller that supplied no usable user id), while the
non-empty filter is owner-restricted. -/
theorem C10_unfiltered_witness :
    search_with_user_filter c10Coll (some "") 3
        = search_with_user_filter c10Coll none 3 ∧
    (search_with_user_filter c10Coll (some "") 3).any
      (fun r => r.payload.user_id == some "bob") = true ∧
    (search_with_user_filter c10Coll (some "alice") 3).all
      (fun r => r.payload.user_id == some "alice"
        || r.payload.user_id == some "public") = true := by
  refine ⟨(C10_unfiltered_when_user_id_falsy c10Coll 3).2.1, by decide, ?_⟩
  have h := (C10_unfiltered_when_user_id_falsy c10Coll 3).2.2 "alice" (by decide)
  rw [List.all_eq_true]
  intro r hr
  rcases h r hr with h' | h' <;> simp [h']

/-- C4 (code bug): with two relevant sources in the shared collection and a
requested result set of size 2 with `min_sources = 2`, the diversity
selection still returns both results from the single top source — the first
pass accepts a duplicate-source hit whenever fewer than `min_sources` distinct
sources have been seen, exhausting the selection before a second source is
reached. -/
theorem C4_diversity_not_enforced :
    ((c4Coll.filter (matchesUserFilter "u1")).map
        (fun p => extractSource p.payload)).dedup.length = 2 ∧
    (search_with_diversity c4Coll (some "u1") 2 2).length = 2 ∧
    distinctSources (search_with_diversity c4Coll (some "u1") 2 2) = 1 := by
  decide

/-- C5 counterexample: two profiles with identical `(role,
diagnosis_status)` but different `child_age` resolve different initial
context paths in `start_conversation`. -/
theorem C5_counterexample :
    profileNoDxToddler.role = profileNoDxSchool.role ∧
    profileNoDxToddler.diagnosis_status = profileNoDxSchool.diagnosis_status ∧
    (startConversation demoEnv {} profileNoDxToddler).toOption.map
        (fun r => r.2.context_path) = some "screening.early_childhood" ∧
    (startConversation demoEnv {} profileNoDxSchool).toOption.map
        (fun r => r.2.context_path) = some "screening.school_age" := by
  decide

/-- A successful `start_conversation` reports exactly the context path the
knowledge adapter resolved from the profile. -/
theorem startConversation_ok_path (env : ManagerEnv) (st : MState) (p : Profile)
    {r : MState × StartResult} (h : startConversation env st p = .ok r) :
    r.2.context_path = get_initial_context p := by
  unfold startConversation at h
  cases hc : env.synthCall "Start conversation" (some (get_initial_context p)) p [] with
  | error e =>
    rw [hc] at h
    simp [Except.map] at h
  | ok s =>
    rw [hc] at h
    simp only [Except.map] at h
    cases h
    rfl

/-- C5 (amended): the initial context path resolved by a successful
`start_conversation` is a deterministic function of the profile's
`(role, diagnosis_status, child_age)` triple — across arbitrary manager
states and collaborator environments. -/
theorem C5_initial_context_deterministic (env1 env2 : ManagerEnv)
    (st1 st2 : MState) (p q : Profile) {r1 r2 : MState × StartResult}
    (h1 : startConversation env1 st1 p = .ok r1)
    (h2 : startConversation env2 st2 q = .ok r2)
    (hrole : p.role = q.role) (hds : p.diagnosis_status = q.diagnosis_status)
    (hage : p.child_age = q.child_age) :
    r1.2.context_path = r2.2.context_path := by
  rw [startConversation_ok_path env1 st1 p h1, startConversation_ok_path env2 st2 q h2]
  unfold get_initial_context
  rw [hrole, hds, hage]

/-- Closed witness for C5: two profiles agreeing on the routing triple but
differing in `user_id` and `child_name` resolve the same initial context. -/
theorem C5_initial_context_witness :
    (startConversation demoEnv {} profileTwinA).toOption.map
        (fun r => r.2.context_path)
      = (startConversation demoEnv {} profileTwinB).toOption.map
        (fun r => r.2.context_path) := by
  obtain ⟨rA, hA⟩ : ∃ rA, startConversation demoEnv {} profileTwinA = .ok rA := ⟨_, rfl⟩
  obtain ⟨rB, hB⟩ : ∃ rB, startConversation demoEnv {} profileTwinB = .ok rB := ⟨_, rfl⟩
  rw [hA, hB]
  exact congrArg some
    (C5_initial_context_deterministic demoEnv demoEnv {} {} profileTwinA
      profileTwinB hA hB rfl rfl rfl)

/-- C1 counterexample: the router is constructed with an empty critical-term
set (`self.safety = set()`), so the scenario query "he mentioned wanting to
end his life" matches no configured term: it is routed as a free-form query
with mode `"vector_only"` (not `"mongo_only"`), no safety warning is
produced, and a whole manager turn on it reports mode `"vector_only"`. -/
theorem C1_counterexample :
    (route constructedSafety (fun _ => []) false
        "he mentioned wanting to end his life" profileNoDxToddler none).1
      = "vector_only" ∧
    (route constructedSafety (fun _ => []) false
        "he mentioned wanting to end his life" profileNoDxToddler none).1
      ≠ "mongo_only" ∧
    get_safety_warning constructedSafety "he mentioned wanting to end his life" = "" ∧
    (processUserResponse demoEnv {} "he mentioned wanting to end his life" none).2.mode
      = some "vector_only" := by
  decide

/-- C1 (amended): safety precedence holds of the routing function — for every
configured critical-term set, any query containing one of its terms
(case-insensitively) makes `route` return `mongo_only` with an empty
candidate list, regardless of context path, profile and store.  The router as
constructed, however, configures an empty term set, so no query (in
particular not the scenario query) triggers this path; a configured match
would produce the fixed warning naming a "healthcare professional". -/
theorem C1_safety_precedence (safety : List String) (store : String → List QPoint)
    (embedOk : Bool) (q : String) (p : Profile) (ctx : Option String) (t : String)
    (ht : t ∈ safety) (hmatch : containsCI q.data t.data = true) :
    route safety store embedOk q p ctx = ("mongo_only", []) := by
  have h : safety.any (fun t' => containsCI q.data t'.data) = true :=
    List.any_eq_true.2 ⟨t, ht, hmatch⟩
  simp [route, h]

/-- Closed witness for C1 (amended): had "end his life" been a configured
critical term, the scenario query would have routed `mongo_only` with no
candidates even from a guided context and a non-trivial store. -/
theorem C1_safety_precedence_witness :
    route ["end his life"] c2Store true
      "he mentioned wanting to end his life" profileNoDxToddler
      (some "diagnosed_yes.support_affording") = ("mongo_only", []) :=
  C1_safety_precedence ["end his life"] c2Store true
    "he mentioned wanting to end his life" profileNoDxToddler
    (some "diagnosed_yes.support_affording") "end his life" (by decide) (by decide)

/-- C3: for a context path absent from the structured store and an empty
candidate list, `synthesize_response` returns the canned generic fallback:
the response is one of three non-empty variants chosen by the profile's
diagnosis status alone, the confidence is exactly 0.5, and the source list is
empty. -/
theorem C3_fallback_completeness (env : SynthEnv) (q ctx : String) (p : Profile)
    (h : env.mongo ctx = none) :
    (synthesize_response env q ctx p []).response = fallbackResponse p ∧
    (synthesize_response env q ctx p []).response ≠ "" ∧
    ((synthesize_response env q ctx p []).response = fallbackNoDx ∨
     (synthesize_response env q ctx p []).response = fallbackDx ∨
     (synthesize_response env q ctx p []).response = fallbackUnknown) ∧
    (∀ p' : Profile, p'.diagnosis_status = p.diagnosis_status →
      (synthesize_response env q ctx p' []).response
        = (synthesize_response env q ctx p []).response) ∧
    (synthesize_response env q ctx p []).confidence = 1/2 ∧
    (synthesize_response env q ctx p []).sources = [] := by
  have hres : ∀ p'' : Profile, synthesize_response env q ctx p'' [] =
      { response := fallbackResponse p''
        sources := []
        confidence := 1/2
        next_suggestions := ["Learn about screening options", "Find support resources",
                             "Explore treatment options"]
        web_content := []
        vector_results := [] } := by
    intro p''
    unfold synthesize_response
    rw [h]
    simp [hasUserDocs]
  have hfb : ∀ p'' : Profile, fallbackResponse p'' = fallbackNoDx ∨
      fallbackResponse p'' = fallbackDx ∨ fallbackResponse p'' = fallbackUnknown := by
    intro p''
    unfold fallbackResponse
    split_ifs <;> simp
  have hne : fallbackResponse p ≠ "" := by
    rcases hfb p with h' | h' | h' <;> rw [h'] <;> decide
  refine ⟨by rw [hres p], by rw [hres p]; exact hne, by rw [hres p]; exact hfb p,
    ?_, by rw [hres p], by rw [hres p]⟩
  intro p' hp'
  rw [hres p', hres p]
  simp only [fallbackResponse, hp']

/-- Closed witness for C3, at the spec's missing-node scenario: context path
`"nonexistent.path"`, no candidates. -/
theorem C3_fallback_witness :
    (synthesize_response pureSynthEnv "tell me more" "nonexistent.path"
        profileNoDxToddler []).response ≠ "" ∧
    (synthesize_response pureSynthEnv "tell me more" "nonexistent.path"
        profileNoDxToddler []).confidence = 1/2 ∧
    (synthesize_response pureSynthEnv "tell me more" "nonexistent.path"
        profileNoDxToddler []).sources = [] := by
  have h := C3_fallback_completeness pureSynthEnv "tell me more" "nonexistent.path"
    profileNoDxToddler rfl
  exact ⟨h.2.1, h.2.2.2.2.1, h.2.2.2.2.2⟩

/-- At least one filename is collected when a private-document hit exists. -/
theorem userDocFilenames_ne_nil :
    ∀ (vr : List SearchHit) (acc : List String),
      (acc ≠ [] ∨ hasUserDocs vr = true) →
      vr.foldl (fun acc r =>
        if r.payload.source == some "user_upload" || r.payload.type == some "user_document" then
          let fn := r.payload.filename.getD "Unknown file"
          if fn ∈ acc then acc else acc ++ [fn]
        else acc) acc ≠ []
  | [], acc, h => by
    rcases h with h | h
    · exact h
    · simp [hasUserDocs] at h
  | r :: rest, acc, h => by
    rw [List.foldl_cons]
    by_cases hp : (r.payload.source == some "user_upload"
        || r.payload.type == some "user_document") = true
    · rw [if_pos hp]
      show List.foldl _
        (if r.payload.filename.getD "Unknown file" ∈ acc then acc
         else acc ++ [r.payload.filename.getD "Unknown file"]) rest ≠ []
      by_cases hm : r.payload.filename.getD "Unknown file" ∈ acc
      · rw [if_pos hm]
        exact userDocFilenames_ne_nil rest acc (Or.inl (List.ne_nil_of_mem hm))
      · rw [if_neg hm]
        exact userDocFilenames_ne_nil rest _ (Or.inl (by simp))
    · rw [if_neg hp]
      refine userDocFilenames_ne_nil rest acc ?_
      rcases h with h | h
      · exact Or.inl h
      · refine Or.inr ?_
        simp only [Bool.or_eq_true] at hp
        simp only [hasUserDocs, List.any_cons, Bool.or_eq_true] at h ⊢
        rcases h with h | h
        · exact absurd h hp
        · exact h

/-- Lemma: `userDocFilenames` is non-empty whenever a private-document hit exists. -/
theorem userDocFilenames_of_hasUserDocs (vr : List SearchHit)
    (h : hasUserDocs vr = true) : userDocFilenames vr ≠ [] := by
  unfold userDocFilenames
  exact userDocFilenames_ne_nil vr [] (Or.inr h)

/-- A candidate hit drawn from an uploaded document of user `uA`. -/
def c6Hit : SearchHit :=
  ⟨9/10,
   { user_id := some "uA", source := some "user_upload",
     filename := some "tucker_report.pdf", type := some "user_document",
     content := some "Patient: Tucker, Age: 5, Diagnosis: ASD".data },
   7⟩

/-- C6: confidence tiers of `synthesize_response` — 0.95 when a
private-document hit contributed (and then the first source entry is an
uploaded-document filename drawn from those hits), else 0.9 when external web
content contributed, else 0.7 when structured content was found, and 0.5 in
the pure fallback case. -/
theorem C6_confidence_tiers (env : SynthEnv) (q ctx : String) (p : Profile)
    (vr : List SearchHit) :
    (hasUserDocs vr = true →
      (synthesize_response env q ctx p vr).confidence = 95/100 ∧
      ∃ fn, (synthesize_response env q ctx p vr).sources.head?
          = some ({ source := "user_upload", filename := some fn,
                    type := "user_document" } : SourceEntry) ∧
        fn ∈ userDocFilenames vr) ∧
    (hasUserDocs vr = false → (env.mongo ctx).isSome = true →
      (synthesize_response env q ctx p vr).confidence
        = (if (synthesize_response env q ctx p vr).web_content ≠ [] then 9/10
           else 7/10)) ∧
    (env.mongo ctx = none → hasUserDocs vr = false →
      (synthesize_response env q ctx p vr).confidence = 1/2) := by
  refine ⟨?_, ?_, ?_⟩
  · intro h
    have hne := userDocFilenames_of_hasUserDocs vr h
    obtain ⟨fn, tl, hft⟩ := List.exists_cons_of_ne_nil hne
    refine ⟨by simp [synthesize_response, h], fn, ?_,
      by rw [hft]; exact List.mem_cons_self fn tl⟩
    simp only [synthesize_response]
    rw [if_neg (by simp [h])]
    rw [hft]
    simp
  · intro h hm
    obtain ⟨d, hd⟩ := Option.isSome_iff_exists.1 hm
    simp [synthesize_response, h, hd]
  · intro hm h
    simp [synthesize_response, h, hm]

/-- Closed witness for C6, at the spec's private-doc scenario: one uploaded
document about Tucker, confidence 0.95, uploaded filename listed first. -/
theorem C6_confidence_witness :
    (synthesize_response pureSynthEnv "what therapy helps Tucker?" "treatment"
        profileTwinA [c6Hit]).confidence = 95/100 ∧
    (synthesize_response pureSynthEnv "what therapy helps Tucker?" "treatment"
        profileTwinA [c6Hit]).sources.head?
      = some ({ source := "user_upload", filename := some "tucker_report.pdf",
                type := "user_document" } : SourceEntry) := by
  refine ⟨((C6_confidence_tiers pureSynthEnv "what therapy helps Tucker?" "treatment"
    profileTwinA [c6Hit]).1 (by decide)).1, by decide⟩

/-- Manager environment whose routing call raises. -/
def routeFailEnv : ManagerEnv :=
  { demoEnv with routeCall := fun _ _ _ => .error "vector store down" }

/-- Manager environment whose synthesis call raises. -/
def synthFailEnv : ManagerEnv :=
  { demoEnv with synthCall := fun _ _ _ _ => .error "mongo down" }

/-- C9 counterexample: when the routing step raises, the inner handler
degrades the turn to `("vector_only", [])` and processing continues — the
returned mode is `"vector_only"`, not `"error"`, and the response is the
synthesized one, not the apology. -/
theorem C9_counterexample :
    (processUserResponse routeFailEnv {} "tell me about therapy" none).2.mode
        = some "vector_only" ∧
    (processUserResponse routeFailEnv {} "tell me about therapy" none).2.mode
        ≠ some "error" ∧
    (processUserResponse routeFailEnv {} "tell me about therapy" none).2.response
        ≠ apologyMessage := by
  decide

/-- C9 (amended): a *synthesis* exception is caught at the manager boundary
and converted into the apologetic message with mode `"error"`, with every
turn recorded before the failure preserved unchanged (the prior history plus
the just-recorded user turn); a *routing* exception, by contrast, is caught
by the inner handler and the turn proceeds in `vector_only` mode with empty
candidates — no `"error"` mode is reported for it. -/
theorem C9_failure_semantics (env : ManagerEnv) (st : MState) (input : String)
    (selected : Option String)
    (hsafe : get_safety_warning env.safety input = "") :
    (∀ msg, (∀ q c p vr, env.synthCall q c p vr = .error msg) →
      (processUserResponse env st input selected).2.mode = some "error" ∧
      (processUserResponse env st input selected).2.response = apologyMessage ∧
      (processUserResponse env st input selected).1.history
        = st.history ++ [Turn.user input env.now] ∧
      st.history <+: (processUserResponse env st input selected).1.history) ∧
    (∀ msg r, (∀ q p c, env.routeCall q p c = .error msg) →
      (∀ q c p vr, env.synthCall q c p vr = .ok r) →
      (processUserResponse env st input selected).2.mode = some "vector_only" ∧
      (processUserResponse env st input selected).2.response = r.response ∧
      st.history <+: (processUserResponse env st input selected).1.history) := by
  constructor
  · intro msg hsyn
    have hist_eq : (processUserResponse env st input selected).1.history
        = st.history ++ [Turn.user input env.now] := by
      simp [processUserResponse, hsafe, hsyn, ite_self]
    refine ⟨?_, ?_, hist_eq, ?_⟩
    · simp [processUserResponse, hsafe, hsyn, ite_self]
    · simp [processUserResponse, hsafe, hsyn, ite_self]
    · rw [hist_eq]
      exact List.prefix_append _ _
  · intro msg r hroute hsyn
    refine ⟨?_, ?_, ?_⟩
    · simp [processUserResponse, hsafe, hroute, hsyn]
    · simp [processUserResponse, hsafe, hroute, hsyn]
    · simp [processUserResponse, hsafe, hroute, hsyn]

/-- Closed witness for C9 (amended): with a raising synthesis collaborator,
a concrete turn yields the apology, mode `"error"`, and the user turn
appended to the (previously empty) history. -/
theorem C9_failure_witness :
    (processUserResponse synthFailEnv {} "hello" none).2.mode = some "error" ∧
    (processUserResponse synthFailEnv {} "hello" none).2.response = apologyMessage ∧
    (processUserResponse synthFailEnv {} "hello" none).1.history
      = [Turn.user "hello" "t0"] := by
  have h := (C9_failure_semantics synthFailEnv {} "hello" none rfl).1 "mongo down"
    (fun _ _ _ _ => rfl)
  exact ⟨h.1, h.2.1, by simpa using h.2.2.1⟩

/-! ## C8: dedup idempotence of ingestion -/

/-- All documents accumulated by the chunk-level loop carry the file's name. -/
theorem chunkFold_filenames (fname : String) (total : Nat) :
    ∀ (l : List (Nat × List Char))
      (st : List (String × List Char × Nat × Nat) × List (List Char)),
      (∀ d ∈ st.1, d.1 = fname) →
      ∀ d ∈ (l.foldl (chunkIngestStep fname total) st).1, d.1 = fname
  | [], _, h => h
  | ic :: rest, st, h => by
    rw [List.foldl_cons]
    refine chunkFold_filenames fname total rest _ ?_
    unfold chunkIngestStep
    split
    · exact h
    · intro d hd
      rcases List.mem_append.1 hd with hd | hd
      · exact h d hd
      · simp only [List.mem_singleton] at hd
        rw [hd]

/-- All documents produced by processing one file carry that file's name. -/
theorem processFile_filenames (ed : List String) (f : UserFile)
    (st : List (String × List Char × Nat × Nat) × List (List Char))
    (h : ∀ d ∈ st.1, d.1 = f.name) :
    ∀ d ∈ (processFile ed st f).1, d.1 = f.name := by
  unfold processFile
  split
  · exact h
  · split
    · exact h
    · exact chunkFold_filenames f.name _ _ st h

/-- Unfolding equation for single-file ingestion. -/
theorem ingest_single_eq (user_id : String) (embedOk : Bool) (f : UserFile)
    (col : List UPoint) :
    ingest_user_documents user_id embedOk [f] col
      = (let documents := (processFile ((col.take 1000).map (fun p => p.filename))
            ([], (col.take 1000).map (fun p => p.content)) f).1
         if documents = [] then (0, col)
         else if embedOk then
           (documents.length, col ++ documents.enum.map (fun d =>
             (⟨col.length + d.1, d.2.1, d.2.2.1, user_id, d.2.2.2.1,
               d.2.2.2.2⟩ : UPoint)))
         else (0, col)) := rfl

/-- C8 (amended): re-ingesting the same document is idempotent *provided* the
collection holds at most 1000 points after the first ingestion — the
whole-file dedup scan scrolls the collection with `limit = 1000`, so the
second run sees the file's earlier chunks and skips the file. -/
theorem C8_dedup_idempotent (user_id : String) (embedOk : Bool) (f : UserFile)
    (col : List UPoint)
    (hlen : ((ingest_user_documents user_id embedOk [f] col).2).length ≤ 1000) :
    ingest_user_documents user_id embedOk [f]
        ((ingest_user_documents user_id embedOk [f] col).2)
      = (0, (ingest_user_documents user_id embedOk [f] col).2) := by
  by_cases hd : (processFile ((col.take 1000).map (fun p => p.filename))
      ([], (col.take 1000).map (fun p => p.content)) f).1 = []
  · have h1 : ingest_user_documents user_id embedOk [f] col = (0, col) := by
      rw [ingest_single_eq]
      simp only [hd, ite_true]
    rw [h1]
    rw [ingest_single_eq]
    simp only [hd, ite_true]
  · by_cases he : embedOk
    · -- the first run stored the file's chunks; the second sees the filename
      obtain ⟨d0, tl0, hd0⟩ := List.exists_cons_of_ne_nil hd
      have hfn : d0.1 = f.name := by
        have := processFile_filenames ((col.take 1000).map (fun p => p.filename)) f
          ([], (col.take 1000).map (fun p => p.content)) (by intro d hdm; cases hdm)
        exact this d0 (by rw [hd0]; exact List.mem_cons_self _ _)
      have h1 : ingest_user_documents user_id embedOk [f] col
          = ((processFile ((col.take 1000).map (fun p => p.filename))
                ([], (col.take 1000).map (fun p => p.content)) f).1.length,
             col ++ (processFile ((col.take 1000).map (fun p => p.filename))
                ([], (col.take 1000).map (fun p => p.content)) f).1.enum.map (fun d =>
               (⟨col.length + d.1, d.2.1, d.2.2.1, user_id, d.2.2.2.1,
                 d.2.2.2.2⟩ : UPoint))) := by
        rw [ingest_single_eq]
        simp only [hd, ite_false, he, ite_true]
      set col1 := (ingest_user_documents user_id embedOk [f] col).2 with hcol1
      have hcol1eq : col1 = col ++ (processFile ((col.take 1000).map (fun p => p.filename))
          ([], (col.take 1000).map (fun p => p.content)) f).1.enum.map (fun d =>
            (⟨col.length + d.1, d.2.1, d.2.2.1, user_id, d.2.2.2.1,
              d.2.2.2.2⟩ : UPoint)) := by
        rw [hcol1, h1]
      have htake : col1.take 1000 = col1 := List.take_of_length_le hlen
      have hmem : f.name ∈ (col1.take 1000).map (fun p => p.filename) := by
        rw [htake, hcol1eq, hd0]
        refine List.mem_map.2 ⟨⟨col.length + 0, d0.1, d0.2.1, user_id, d0.2.2.1,
          d0.2.2.2⟩, ?_, hfn⟩
        refine List.mem_append_right _ ?_
        simp [List.enum_cons]
      rw [ingest_single_eq]
      have hskip : (processFile ((col1.take 1000).map (fun p => p.filename))
          ([], (col1.take 1000).map (fun p => p.content)) f).1 = [] := by
        unfold processFile
        rw [if_pos hmem]
      simp only [hskip, ite_true]
    · have h1 : ingest_user_documents user_id embedOk [f] col = (0, col) := by
        rw [ingest_single_eq]
        simp [hd, he]
      rw [h1]
      rw [ingest_single_eq]
      simp [hd, he]

/-- Closed witness for C8 (amended): re-ingesting a small document into a
small collection stores nothing the second time. -/
theorem C8_dedup_witness :
    ingest_user_documents "u1" true [⟨"a.txt", "hi".data⟩]
        ((ingest_user_documents "u1" true [⟨"a.txt", "hi".data⟩] []).2)
      = (0, (ingest_user_documents "u1" true [⟨"a.txt", "hi".data⟩] []).2) :=
  C8_dedup_idempotent "u1" true ⟨"a.txt", "hi".data⟩ [] (by decide)

/-- A filler chunk belonging to a different, long document. -/
def fillerPoint (i : Nat) : UPoint := ⟨i, "other.txt", "zzz".data, "u1", 0, 1⟩

/-- A collection already holding 1000 chunks of `other.txt`. -/
def bigCol : List UPoint := (List.range 1000).map fillerPoint

/-- The document ingested twice in the C8 counterexample. -/
def newDoc : UserFile := ⟨"doc.txt", "hello world".data⟩

/-- Ingesting `newDoc` into a collection whose 1000-point scroll window shows
neither its filename nor similar content stores exactly its one chunk. -/
theorem ingest_newDoc (col : List UPoint)
    (hdocs : "doc.txt" ∉ (col.take 1000).map (fun p => p.filename))
    (hchunks : ∀ c ∈ (col.take 1000).map (fun p => p.content), c = "zzz".data) :
    ingest_user_documents "u1" true [newDoc] col
      = (1, col ++ [⟨col.length, "doc.txt", "hello world.".data, "u1", 0, 1⟩]) := by
  have hsim : check_content_similarity "hello world.".data "zzz".data = false := by
    have h0 : check_content_similarity "hello world.".data "zzz".data
        = jaccardExceeds 0 3 (8/10) := rfl
    rw [h0]
    unfold jaccardExceeds
    rw [decide_eq_false_iff_not]
    norm_num
  have hdup : check_duplicate_content "hello world.".data
      ((col.take 1000).map (fun p => p.content)) = false := by
    unfold check_duplicate_content
    rw [List.any_eq_false]
    intro c hc
    rw [hchunks c hc]
    simp [hsim]
  have hpf : processFile ((col.take 1000).map (fun p => p.filename))
      ([], (col.take 1000).map (fun p => p.content)) newDoc
      = ([("doc.txt", "hello world.".data, 0, 1)],
         ((col.take 1000).map (fun p => p.content)) ++ ["hello world.".data]) := by
    unfold processFile
    rw [if_neg (by simpa [newDoc] using hdocs)]
    rw [if_neg (by decide : ¬(newDoc.content = []))]
    have hch : chunk_text 4000 newDoc.content = ["hello world.".data] := by decide
    rw [hch]
    simp only [List.length_singleton, List.enum_cons, List.enum_nil,
      List.foldl_cons, List.foldl_nil, chunkIngestStep, hdup]
    simp [newDoc]
  rw [ingest_single_eq]
  rw [hpf]
  simp

set_option maxRecDepth 4000 in
/-- C8 counterexample: with 1000 chunks of another document already stored,
the dedup scroll window (`limit = 1000`) never shows the newly ingested
document's chunks, so ingesting the same document a second time stores its
chunk again — the chunk count grows from 1001 to 1002. -/
theorem C8_counterexample :
    (ingest_user_documents "u1" true [newDoc] bigCol).1 = 1 ∧
    (ingest_user_documents "u1" true [newDoc]
        (ingest_user_documents "u1" true [newDoc] bigCol).2).1 = 1 ∧
    ((ingest_user_documents "u1" true [newDoc] bigCol).2).length = 1001 ∧
    ((ingest_user_documents "u1" true [newDoc]
        (ingest_user_documents "u1" true [newDoc] bigCol).2).2).length = 1002 := by
  have hlen_big : bigCol.length = 1000 := by simp [bigCol]
  have hbig_take : bigCol.take 1000 = bigCol :=
    List.take_of_length_le (le_of_eq hlen_big)
  have hdocs1 : "doc.txt" ∉ (bigCol.take 1000).map (fun p => p.filename) := by
    rw [hbig_take]
    intro hmem
    unfold bigCol at hmem
    rw [List.map_map] at hmem
    obtain ⟨i, _, heq⟩ := List.mem_map.1 hmem
    simp [fillerPoint] at heq
  have hchunks1 : ∀ c ∈ (bigCol.take 1000).map (fun p => p.content),
      c = "zzz".data := by
    intro c hc
    rw [hbig_take] at hc
    unfold bigCol at hc
    rw [List.map_map] at hc
    obtain ⟨i, _, heq⟩ := List.mem_map.1 hc
    rw [← heq]
    rfl
  have h1 := ingest_newDoc bigCol hdocs1 hchunks1
  have htake2 : ((bigCol ++ [(⟨bigCol.length, "doc.txt", "hello world.".data,
      "u1", 0, 1⟩ : UPoint)]).take 1000) = bigCol := by
    rw [List.take_append_of_le_length (le_of_eq hlen_big.symm), hbig_take]
  have h2 := ingest_newDoc (bigCol ++ [⟨bigCol.length, "doc.txt",
      "hello world.".data, "u1", 0, 1⟩]) (by rw [htake2]; exact hdocs1)
    (by rw [htake2]; exact hchunks1)
  rw [h1]
  refine ⟨rfl, ?_, ?_, ?_⟩
  · rw [h2]
  · simp [hlen_big]
  · rw [h2]
    simp [hlen_big]

/-! ## C7: chunker budget and order -/

/-- Splitting on a separator that never occurs returns the whole string. -/
theorem pySplitGo_no_sep (c0 : Char) (sep' : List Char) :
    ∀ (fuel : Nat) (s acc : List Char), c0 ∉ s →
      pySplitGo (c0 :: sep') fuel s acc = [acc.reverse ++ s]
  | 0, _, _, _ => rfl
  | _ + 1, [], acc, _ => by simp [pySplitGo]
  | fuel + 1, c :: rest, acc, h => by
    have hc : ¬ (c0 == c) = true := by
      simp only [beq_iff_eq]
      intro hcc
      exact h (hcc ▸ List.mem_cons_self c rest)
    have hpre : (c0 :: sep').isPrefixOf (c :: rest) = false := by
      show (c0 == c && sep'.isPrefixOf rest) = false
      simp [hc]
    rw [pySplitGo, if_neg (by simp [hpre])]
    rw [pySplitGo_no_sep c0 sep' fuel rest (c :: acc)
      (fun hm => h (List.mem_cons_of_mem c hm))]
    simp

/-- Lemma: `pySplit` on a separator-free string is the identity partition. -/
theorem pySplit_no_sep (c0 : Char) (sep' : List Char) (s : List Char)
    (h : c0 ∉ s) : pySplit (c0 :: sep') s = [s] := by
  unfold pySplit
  rw [pySplitGo_no_sep c0 sep' s.length s [] h]
  rfl

/-- A single 16001-character sentence: no `". "` and no blank line inside. -/
def longText : List Char := List.replicate 16001 'a'

theorem longText_cons : longText = 'a' :: List.replicate 16000 'a' := by
  unfold longText
  rw [show (16001 : Nat) = 16000 + 1 from rfl, List.replicate_succ]

theorem longText_append_cons (l : List Char) :
    longText ++ l = 'a' :: (List.replicate 16000 'a' ++ l) := by
  rw [longText_cons, List.cons_append]

theorem longText_length : longText.length = 16001 := by
  unfold longText
  rw [List.length_replicate]

theorem longText_dot_length : (longText ++ ['.']).length = 16002 := by
  rw [List.length_append, longText_length]
  rfl

theorem longText_dot_ne_nil : longText ++ ['.'] ≠ [] := by
  rw [longText_append_cons]
  exact List.cons_ne_nil _ _

theorem not_mem_longText (c : Char) (h : c ≠ 'a') : c ∉ longText := by
  intro hmem
  unfold longText at hmem
  rw [List.mem_replicate] at hmem
  exact h hmem.2

theorem pyStrip_longText_dotSpace :
    pyStrip (longText ++ ['.', ' ']) = longText ++ ['.'] := by
  unfold pyStrip
  rw [longText_append_cons ['.', ' ']]
  rw [List.dropWhile_cons_of_neg (by decide)]
  rw [show ('a' :: (List.replicate 16000 'a' ++ ['.', ' '])).reverse
      = ' ' :: '.' :: longText.reverse from by
    rw [← longText_append_cons ['.', ' '], List.reverse_append,
      show (['.', ' '] : List Char).reverse = [' ', '.'] from by decide,
      List.cons_append, List.cons_append, List.nil_append]]
  rw [List.dropWhile_cons_of_pos (by decide), List.dropWhile_cons_of_neg (by decide)]
  rw [List.reverse_cons, List.reverse_reverse]

theorem pyStrip_longText_dot :
    pyStrip (longText ++ ['.']) = longText ++ ['.'] := by
  unfold pyStrip
  rw [longText_append_cons ['.']]
  rw [List.dropWhile_cons_of_neg (by decide)]
  rw [show ('a' :: (List.replicate 16000 'a' ++ ['.'])).reverse
      = '.' :: longText.reverse from by
    rw [← longText_append_cons ['.'], List.reverse_append,
      show (['.'] : List Char).reverse = ['.'] from by decide,
      List.cons_append, List.nil_append]]
  rw [List.dropWhile_cons_of_neg (by decide)]
  rw [List.reverse_cons, List.reverse_reverse]
  exact longText_append_cons ['.']

theorem chunksPhase1_longText :
    chunksPhase1 4000 longText = [longText ++ ['.']] := by
  have hs : pySplit dotSpace longText = [longText] :=
    pySplit_no_sep '.' [' '] longText (not_mem_longText '.' (by decide))
  have hstep : chunkStep 4000 ([], []) longText = ([], longText ++ ['.', ' ']) := by
    unfold chunkStep
    rw [if_neg (by simp)]
    simp [dotSpace]
  simp only [chunksPhase1]
  rw [hs, List.foldl_cons, List.foldl_nil, hstep]
  show (if pyStrip (longText ++ ['.', ' ']) ≠ [] then
      [] ++ [pyStrip (longText ++ ['.', ' '])] else []) = [longText ++ ['.']]
  rw [pyStrip_longText_dotSpace, if_pos longText_dot_ne_nil, List.nil_append]

theorem chunk_text_longText :
    chunk_text 4000 longText = [longText ++ ['.']] := by
  have hnl : ('\n' : Char) ∉ longText ++ ['.'] := by
    intro hmem
    rcases List.mem_append.1 hmem with hmem | hmem
    · exact not_mem_longText '\n' (by decide) hmem
    · rw [List.mem_singleton] at hmem
      cases hmem
  have hps : pySplit parSep (longText ++ ['.']) = [longText ++ ['.']] :=
    pySplit_no_sep '\n' ['\n'] _ hnl
  unfold chunk_text
  rw [chunksPhase1_longText, List.map_cons, List.map_nil]
  unfold chunkPhase2
  rw [if_pos (by rw [longText_dot_length]; norm_num)]
  rw [hps, List.map_cons, List.map_nil, pyStrip_longText_dot]
  rw [List.filter_cons, if_pos (by exact decide_eq_true longText_dot_ne_nil)]
  rw [List.filter_nil, List.flatten_cons, List.flatten_nil, List.append_nil]

/-- C7 counterexample: a document that is a single 16001-character sentence
with no paragraph break is emitted as one chunk of 16002 characters — over
the `4 chars/token x 4000 tokens` budget the claim asserts. -/
theorem C7_counterexample :
    chunk_text 4000 longText = [longText ++ ['.']] ∧
    (longText ++ ['.']).length = 16002 ∧
    ¬ (∀ c ∈ chunk_text 4000 longText, c.length ≤ 4 * 4000) := by
  refine ⟨chunk_text_longText, longText_dot_length, ?_⟩
  intro hall
  have h := hall (longText ++ ['.'])
    (by rw [chunk_text_longText]; exact List.mem_singleton.2 rfl)
  rw [longText_dot_length] at h
  norm_num at h

/-- Predicate: `sep` occurs (as a contiguous run) somewhere in `l`. -/
def occursIn (sep l : List Char) : Prop := ∃ i, sep <+: l.drop i

theorem prefixKeepsOccursIn {sep x l : List Char} (h : x <+: l) :
    occursIn sep x → occursIn sep l := by
  obtain ⟨post, rfl⟩ := h
  rintro ⟨i, hp⟩
  refine ⟨i, ?_⟩
  rcases le_or_lt i x.length with hle | hlt
  · rw [List.drop_append_of_le_length hle]
    exact hp.trans (List.prefix_append _ _)
  · rw [List.drop_eq_nil_of_le (Nat.le_of_lt hlt)] at hp
    rw [List.prefix_nil] at hp
    rw [hp]
    exact List.nil_prefix

theorem suffixKeepsOccursIn {sep x l : List Char} (h : x <:+ l) :
    occursIn sep x → occursIn sep l := by
  obtain ⟨pre, rfl⟩ := h
  rintro ⟨i, hp⟩
  refine ⟨pre.length + i, ?_⟩
  rw [← List.drop_drop, List.drop_left]
  exact hp

theorem dropWhile_is_suffix (p : Char → Bool) (l : List Char) :
    l.dropWhile p <:+ l :=
  ⟨l.takeWhile p, List.takeWhile_append_dropWhile p l⟩

theorem pyStrip_prefix_dropWhile (l : List Char) :
    pyStrip l <+: l.dropWhile Char.isWhitespace := by
  unfold pyStrip
  have h : ((l.dropWhile Char.isWhitespace).reverse.dropWhile Char.isWhitespace)
      <:+ (l.dropWhile Char.isWhitespace).reverse :=
    dropWhile_is_suffix _ _
  have h2 := List.reverse_prefix.mpr h
  rwa [List.reverse_reverse] at h2

theorem not_occursIn_pyStrip {sep l : List Char} (h : ¬ occursIn sep l) :
    ¬ occursIn sep (pyStrip l) := fun hocc =>
  h (suffixKeepsOccursIn (dropWhile_is_suffix _ _)
      (prefixKeepsOccursIn (pyStrip_prefix_dropWhile l) hocc))

/-- A string with no occurrence of non-empty `sep` at any in-range position
has no occurrence at all. -/
theorem no_occ_of_blocked {sep : List Char} (hsep : sep ≠ []) (x : List Char)
    (h : ∀ i, i < x.length → ¬ sep <+: x.drop i) : ¬ occursIn sep x := by
  rintro ⟨i, hi⟩
  rcases Nat.lt_or_ge i x.length with hlt | hge
  · exact h i hlt hi
  · rw [List.drop_eq_nil_of_le hge] at hi
    exact hsep (List.prefix_nil.1 hi)

/-- The pieces emitted by the split worker contain no occurrence of the
separator: every position of a piece was scanned and found not to start one. -/
theorem pySplitGo_no_occ (sep : List Char) (hsep : sep ≠ []) :
    ∀ (fuel : Nat) (s acc : List Char), s.length ≤ fuel →
      (∀ i, i < acc.length → ¬ sep <+: (acc.reverse.drop i ++ s)) →
      ∀ p ∈ pySplitGo sep fuel s acc, ¬ occursIn sep p
  | 0, s, acc, hf, hacc, p, hp => by
    have hs : s = [] := List.eq_nil_of_length_eq_zero (Nat.le_zero.1 hf)
    subst hs
    rw [show pySplitGo sep 0 [] acc = [acc.reverse ++ []] from rfl,
      List.append_nil, List.mem_singleton] at hp
    subst hp
    refine no_occ_of_blocked hsep _ (fun i hilt hpre => ?_)
    rw [List.length_reverse] at hilt
    exact hacc i hilt (by rwa [List.append_nil])
  | fuel + 1, [], acc, _, hacc, p, hp => by
    rw [show pySplitGo sep (fuel + 1) [] acc = [acc.reverse] from rfl,
      List.mem_singleton] at hp
    subst hp
    refine no_occ_of_blocked hsep _ (fun i hilt hpre => ?_)
    rw [List.length_reverse] at hilt
    exact hacc i hilt (by rwa [List.append_nil])
  | fuel + 1, c :: rest, acc, hf, hacc, p, hp => by
    have hfr : rest.length ≤ fuel := Nat.succ_le_succ_iff.1 hf
    by_cases hpre : sep.isPrefixOf (c :: rest) = true
    · rw [pySplitGo, if_pos hpre, List.mem_cons] at hp
      rcases hp with hp | hp
      · subst hp
        refine no_occ_of_blocked hsep _ (fun i hilt hocc => ?_)
        rw [List.length_reverse] at hilt
        exact hacc i hilt (hocc.trans (List.prefix_append _ _))
      · refine pySplitGo_no_occ sep hsep fuel _ []
          (le_trans (by rw [List.length_drop]; omega) hfr) ?_ p hp
        intro i hi
        exact absurd hi (Nat.not_lt_zero i)
    · rw [pySplitGo, if_neg hpre] at hp
      refine pySplitGo_no_occ sep hsep fuel rest (c :: acc) hfr ?_ p hp
      intro i hi
      rw [List.reverse_cons]
      rcases Nat.lt_or_ge i acc.length with hlt | hge
      · rw [List.drop_append_of_le_length (by rw [List.length_reverse]; omega),
          List.append_assoc, List.singleton_append]
        exact hacc i hlt
      · have hieq : i = acc.length := by
          rw [List.length_cons] at hi
          omega
        subst hieq
        rw [List.drop_append_of_le_length (by rw [List.length_reverse]),
          show acc.length = acc.reverse.length from (List.length_reverse acc).symm,
          List.drop_length, List.nil_append, List.singleton_append]
        intro hcon
        rw [← List.isPrefixOf_iff_prefix] at hcon
        exact hpre hcon

/-- Pieces of `pySplit` contain no occurrence of the (non-empty) separator. -/
theorem pySplit_no_occ (sep s : List Char) (hsep : sep ≠ []) :
    ∀ p ∈ pySplit sep s, ¬ occursIn sep p := by
  intro p hp
  refine pySplitGo_no_occ sep hsep s.length s [] (le_refl _) ?_ p hp
  intro i hi
  exact absurd hi (Nat.not_lt_zero i)

/-- Rendering of the document-initial sentence block: every sentence is
re-appended with `". "`. -/
def glueHead (b : List (List Char)) : List Char :=
  (b.map (fun s => s ++ dotSpace)).flatten

/-- Rendering of a block opened by a flush: the flushing sentence is kept
bare and the following sentences are re-appended with `". "`. -/
def glueTail : List (List Char) → List Char
  | [] => []
  | s :: rest => s ++ glueHead rest

/-- Declarative phase-1 chunks of a block partition of the sentence list. -/
def blockChunks : List (List (List Char)) → List (List Char)
  | [] => []
  | b :: bs => pyStrip (glueHead b) :: bs.map (fun b' => pyStrip (glueTail b'))

/-- Chunks emitted while folding over a suffix of the sentence list, given
the in-progress accumulator `cur`. -/
def renderChunks (cur : List Char) : List (List (List Char)) → List (List Char)
  | [] => []
  | b1 :: bs' => pyStrip (cur ++ glueHead b1) :: bs'.map (fun b => pyStrip (glueTail b))

/-- The accumulator left after folding over a suffix of the sentence list. -/
def renderCur (cur : List Char) (bs : List (List (List Char)))
    (lb : List (List Char)) : List Char :=
  match bs with
  | [] => cur ++ glueHead lb
  | _ :: _ => glueTail lb

/-- The sentence-accumulation fold partitions the remaining sentences into
consecutive blocks, in order: the flushed chunks are the rendered blocks and
the final accumulator is the rendered last block. -/
theorem chunkFold_blocks (m : Nat) :
    ∀ (rest : List (List Char)) (chunks : List (List Char)) (cur : List Char),
      ∃ (bs : List (List (List Char))) (lb : List (List Char)),
        bs.flatten ++ lb = rest ∧
        (rest.foldl (chunkStep m) (chunks, cur)).1 = chunks ++ renderChunks cur bs ∧
        (rest.foldl (chunkStep m) (chunks, cur)).2 = renderCur cur bs lb
  | [], chunks, cur =>
    ⟨[], [], rfl, by simp [renderChunks], by simp [renderCur, glueHead]⟩
  | s :: rest', chunks, cur => by
    rw [List.foldl_cons]
    by_cases hc : 4 * m < (cur ++ s).length ∧ cur ≠ []
    · rw [show chunkStep m (chunks, cur) s = (chunks ++ [pyStrip cur], s) from by
        unfold chunkStep; rw [if_pos hc]]
      obtain ⟨bs', lb', hflat, h1, h2⟩ := chunkFold_blocks m rest' (chunks ++ [pyStrip cur]) s
      cases bs' with
      | nil =>
        refine ⟨[[]], s :: lb', ?_, ?_, ?_⟩
        · simp only [List.flatten_cons, List.flatten_nil, List.append_nil,
            List.nil_append] at hflat ⊢
          rw [hflat]
        · rw [h1]
          simp [renderChunks, glueHead, List.append_assoc]
        · rw [h2]
          simp [renderCur, glueTail]
      | cons b1' bs'' =>
        refine ⟨[] :: (s :: b1') :: bs'', lb', ?_, ?_, ?_⟩
        · simp only [List.flatten_cons, List.nil_append, List.cons_append,
            List.append_assoc] at hflat ⊢
          rw [hflat]
        · rw [h1]
          simp [renderChunks, glueTail, List.append_assoc, glueHead]
        · rw [h2]
          simp [renderCur]
    · rw [show chunkStep m (chunks, cur) s = (chunks, cur ++ s ++ dotSpace) from by
        unfold chunkStep; rw [if_neg hc]]
      obtain ⟨bs', lb', hflat, h1, h2⟩ :=
        chunkFold_blocks m rest' chunks (cur ++ s ++ dotSpace)
      cases bs' with
      | nil =>
        refine ⟨[], s :: lb', ?_, ?_, ?_⟩
        · simp only [List.flatten_nil, List.nil_append] at hflat ⊢
          rw [hflat]
        · rw [h1]
          simp [renderChunks]
        · rw [h2]
          simp [renderCur, glueHead, List.append_assoc]
      | cons b1' bs'' =>
        refine ⟨(s :: b1') :: bs'', lb', ?_, ?_, ?_⟩
        · simp only [List.flatten_cons, List.cons_append, List.append_assoc] at hflat ⊢
          rw [hflat]
        · rw [h1]
          simp [renderChunks, glueTail, glueHead, List.append_assoc]
        · rw [h2]
          simp [renderCur]

/-- Phase 1 realizes a consecutive-block partition of the sentence list:
its chunks are the rendered blocks in order, with the final block dropped
when its stripped rendering is empty. -/
theorem chunksPhase1_blocks (m : Nat) (text : List Char) :
    ∃ (blocks : List (List (List Char))) (cs : List (List Char)) (c : List Char),
      blocks ≠ [] ∧
      blocks.flatten = pySplit dotSpace text ∧
      blockChunks blocks = cs ++ [c] ∧
      chunksPhase1 m text = cs ++ (if c = [] then [] else [c]) := by
  obtain ⟨bs, lb, hflat, h1, h2⟩ := chunkFold_blocks m (pySplit dotSpace text) [] []
  cases bs with
  | nil =>
    refine ⟨[lb], [], pyStrip (glueHead lb), by simp, by simpa using hflat,
      by simp [blockChunks], ?_⟩
    simp only [chunksPhase1]
    rw [h1, h2]
    simp only [renderChunks, renderCur, List.nil_append, List.append_nil]
    by_cases hstrip : pyStrip (glueHead lb) = [] <;> simp [hstrip]
  | cons b1 bs' =>
    refine ⟨(b1 :: bs') ++ [lb],
      pyStrip (glueHead b1) :: bs'.map (fun b => pyStrip (glueTail b)),
      pyStrip (glueTail lb), by simp, ?_, ?_, ?_⟩
    · simp only [List.flatten_append, List.flatten_cons, List.flatten_nil,
        List.append_nil, List.append_assoc] at hflat ⊢
      rw [hflat]
    · rw [List.cons_append]
      show blockChunks (b1 :: (bs' ++ [lb])) = _
      simp [blockChunks, List.map_append]
    · simp only [chunksPhase1]
      rw [h1, h2]
      simp only [renderChunks, renderCur, List.nil_append]
      by_cases hstrip : pyStrip (glueTail lb) = [] <;>
        simp [hstrip, List.append_assoc]

/-- C7 (amended): chunk order is preserved — the sentence list is partitioned
into consecutive blocks, phase 1 emits one stripped chunk per block in order
(dropping a final all-whitespace remainder), and phase 2 expands each chunk
in place — and every emitted chunk is either within the ~4 chars/token budget
or is a single paragraph (it contains no blank-line separator); a chunk can
exceed the budget exactly when one paragraph alone does. -/
theorem C7_chunk_order_and_budget (m : Nat) (text : List Char) :
    (∃ (blocks : List (List (List Char))) (cs : List (List Char)) (c : List Char),
        blocks ≠ [] ∧
        blocks.flatten = pySplit dotSpace text ∧
        blockChunks blocks = cs ++ [c] ∧
        chunksPhase1 m text = cs ++ (if c = [] then [] else [c]) ∧
        chunk_text m text
          = ((cs ++ (if c = [] then [] else [c])).map (chunkPhase2 m)).flatten) ∧
    (∀ ch ∈ chunk_text m text, ch.length ≤ 4 * m ∨ ¬ occursIn parSep ch) := by
  constructor
  · obtain ⟨blocks, cs, c, hne, hflat, hbc, hp1⟩ := chunksPhase1_blocks m text
    refine ⟨blocks, cs, c, hne, hflat, hbc, hp1, ?_⟩
    unfold chunk_text
    rw [hp1]
  · intro ch hch
    unfold chunk_text at hch
    rw [List.mem_flatten] at hch
    obtain ⟨l, hl, hchl⟩ := hch
    rw [List.mem_map] at hl
    obtain ⟨chunk, _, rfl⟩ := hl
    unfold chunkPhase2 at hchl
    by_cases hb : 4 * m < chunk.length
    · rw [if_pos hb, List.mem_filter] at hchl
      obtain ⟨hmem, _⟩ := hchl
      rw [List.mem_map] at hmem
      obtain ⟨para, hpara, rfl⟩ := hmem
      exact Or.inr (not_occursIn_pyStrip
        (pySplit_no_occ parSep chunk (by decide) para hpara))
    · rw [if_neg hb, List.mem_singleton] at hchl
      subst hchl
      exact Or.inl (by omega)

/-- Closed witness for C7 (amended), at a small two-sentence document. -/
theorem C7_chunk_order_witness :
    chunk_text 4000 "one. two".data = ["one. two.".data] ∧
    ("one. two.".data.length ≤ 4 * 4000 ∨ ¬ occursIn parSep "one. two.".data) := by
  refine ⟨by decide, ?_⟩
  exact (C7_chunk_order_and_budget 4000 "one. two".data).2 "one. two.".data (by decide)

example :
    distinctSources (search_with_diversity
      [⟨1, 10, some { user_id := some "public", source := some "A" }⟩,
       ⟨2, 9, some { user_id := some "public", source := some "A" }⟩,
       ⟨3, 1, some { user_id := some "public", source := some "B" }⟩]
      (some "u1") 2 2) = 1 := by decide

example :
    ingest_user_documents "u1" true [⟨"a.txt", "hi".data⟩] [] =
      (1, [⟨0, "a.txt", "hi.".data, "u1", 0, 1⟩]) := by decide

example :
    (ingest_user_documents "u1" true [⟨"a.txt", "hi".data⟩]
      [⟨0, "a.txt", "hi.".data, "u1", 0, 1⟩]).1 = 0 := by decide

example : chunk_text 4000 "hello world".data = ["hello world.".data] := by decide

example : chunk_text 4000 "one. two".data = ["one. two.".data] := by decide

example : chunk_text 4000 [] = [".".data] := by decide

example : containsCI "He mentioned IT".data "it".data = true := by decide

example : pyWords " a  bb ".data = ["a".data, "bb".data] := by decide

end AutismSupport
